import Mathlib

/-!
Shallow embedding of `src/lib/solvers/solve_waves.py`, a CP-SAT based
orchestrator that turns a JSON model of a binary assignment problem into an
integer program, hands it to an external solving engine, and maps the engine
outcome to an output record.  Compilation of constraints and of the objective,
the status-table mapping, the output-dictionary construction and the top-level
error wrapper are translated from the source; the external engine is kept
abstract as a parameter.
-/

set_option autoImplicit false

namespace SolveWaves

/-- JSON-like values appearing in the produced solution record. -/
inductive JVal where
  | jbool (b : Bool)
  | jstr (s : String)
  | jnum (n : Int)
  | jnull
deriving DecidableEq, Repr

/-- A Python dict of numbers, as iterated by the source: an association list
from string keys to numeric values, keys unique by construction in JSON. -/
abbrev NumDict := List (String × Int)

/-- Membership-respecting lookup in a numeric dict: the `d[k]` / `k in d`
operations of the source. -/
def dlookupI (d : NumDict) (k : String) : Option Int :=
  (d.find? (fun p => p.1 == k)).map (fun p => p.2)

/-- The parsed input document: the variable coefficient maps, `constraints`,
`integers` and the optional `optimize` field, in source iteration order. -/
structure InputDoc where
  varDefs : List (String × NumDict)
  constraints : List (String × NumDict)
  integers : List String
  optimize : Option String

/-- Kind of decision variable created for a name: `NewBoolVar` when the name
is listed in `integers`, otherwise `NewIntVar(0, 1)`. -/
inductive VarKind where
  | boolVar
  | intVar01
deriving DecidableEq, Repr

/-- Variable declaration loop of the source: each declared name becomes a
`boolVar` when it is contained in `integers` and an `intVar01` otherwise. -/
def newVars (varDefs : List (String × NumDict)) (integers : List String) :
    List (String × VarKind) :=
  varDefs.map (fun p => (p.1, if integers.contains p.1 then VarKind.boolVar else VarKind.intVar01))

/-- Relation operator attached to a compiled constraint. -/
inductive Rel where
  | eq
  | ge
  | le
deriving DecidableEq, Repr

/-- A compiled linear relation: weighted variable terms, an operator and a
constant bound. -/
structure LinRel where
  terms : List (String × Int)
  rel : Rel
  bound : Int
deriving DecidableEq, Repr

/-- Left-hand-side term construction of the source: scan the declared
variables in order and keep `(name, coeff)` for each variable whose
coefficient map contains the dimension. -/
def lhsTerms (varDefs : List (String × NumDict)) (dim : String) :
    List (String × Int) :=
  varDefs.filterMap (fun p => (dlookupI p.2 dim).map (fun c => (p.1, c)))

/-- Compilation of one constraint entry, following the `if 'equal' /
elif 'min' / elif 'max' / else skip` chain of the source. -/
def compileConstraint (varDefs : List (String × NumDict)) (c : String × NumDict) :
    Option LinRel :=
  match dlookupI c.2 "equal" with
  | some v => some ⟨lhsTerms varDefs c.1, Rel.eq, v⟩
  | none =>
    match dlookupI c.2 "min" with
    | some v => some ⟨lhsTerms varDefs c.1, Rel.ge, v⟩
    | none =>
      match dlookupI c.2 "max" with
      | some v => some ⟨lhsTerms varDefs c.1, Rel.le, v⟩
      | none => none

/-- The compiled integer program handed to the engine. -/
structure Program where
  vars : List (String × VarKind)
  rels : List LinRel
  objective : List (String × Int)
deriving DecidableEq

/-- Full model compilation: declare the variables, compile the constraints in
order, and build the minimisation objective from the `optimize` dimension,
defaulting to `events`. -/
def compileProgram (doc : InputDoc) : Program :=
  { vars := newVars doc.varDefs doc.integers
    rels := doc.constraints.filterMap (compileConstraint doc.varDefs)
    objective := lhsTerms doc.varDefs (doc.optimize.getD "events") }

/-- Value of a weighted sum of terms under an assignment. -/
def evalTerms (a : String → Int) (ts : List (String × Int)) : Int :=
  (ts.map (fun p => a p.1 * p.2)).sum

/-- Domain bound attached by the source to a declared variable: `NewBoolVar`
admits exactly 0 and 1, `NewIntVar(0, 1)` admits the integers between 0 and 1. -/
def varDomain (k : VarKind) (v : Int) : Bool :=
  match k with
  | VarKind.boolVar => v == 0 || v == 1
  | VarKind.intVar01 => decide (0 ≤ v) && decide (v ≤ 1)

/-- Satisfaction of one compiled relation by an assignment. -/
def satRel (a : String → Int) (r : LinRel) : Bool :=
  match r.rel with
  | Rel.eq => evalTerms a r.terms == r.bound
  | Rel.ge => decide (evalTerms a r.terms ≥ r.bound)
  | Rel.le => decide (evalTerms a r.terms ≤ r.bound)

/-- An assignment satisfies a program when it respects every variable domain
and every registered relation. -/
def satisfiesProgram (p : Program) (a : String → Int) : Bool :=
  p.vars.all (fun q => varDomain q.2 (a q.1)) && p.rels.all (satRel a)

/-- CP-SAT status code for a proven optimal solution. -/
def OPTIMAL : Int := 4

/-- CP-SAT status code for a solution found without an optimality proof. -/
def FEASIBLE : Int := 2

/-- CP-SAT status code for a proven-infeasible program. -/
def INFEASIBLE : Int := 3

/-- CP-SAT status code for a structurally invalid program. -/
def MODEL_INVALID : Int := 1

/-- Outcome reported by the external engine: a raw status code, the value the
solver assigns to each variable name, and the achieved objective value. -/
structure EngineResult where
  status : Int
  value : String → Int
  objectiveValue : Int

/-- The produced output record: a Python dict from keys to JSON values. -/
abbrev SolDict := List (String × JVal)

/-- Python dict assignment `d[k] = v`: replace the value in place when the key
is present, append the pair otherwise. -/
def dictInsert (d : SolDict) (k : String) (v : JVal) : SolDict :=
  if d.any (fun p => p.1 == k) then
    d.map (fun p => if p.1 == k then (k, v) else p)
  else
    d ++ [(k, v)]

/-- Lookup in the produced output record. -/
def dlookup (d : SolDict) (k : String) : Option JVal :=
  (d.find? (fun p => p.1 == k)).map (fun p => p.2)

/-- Writes of the three header fields of a branch of the status table, in
source order: `feasible`, then `status`, then `result`. -/
def writeStatusFields (b : Bool) (st : String) (r : JVal) : SolDict :=
  dictInsert (dictInsert (dictInsert [] "feasible" (JVal.jbool b))
    "status" (JVal.jstr st)) "result" r

/-- Per-variable write loop of the optimal and feasible branches: one entry
per declared variable, in declaration order, holding the solver value. -/
def writeVarValues (s : SolDict) (cpVars : List (String × VarKind))
    (value : String → Int) : SolDict :=
  cpVars.foldl (fun acc q => dictInsert acc q.1 (JVal.jnum (value q.1))) s

/-- Status-table mapping of the source: branch on the engine status code,
write the `feasible` / `status` / `result` fields, and under the optimal and
feasible branches additionally write one entry per declared variable. -/
def buildSolution (cpVars : List (String × VarKind)) (res : EngineResult) : SolDict :=
  if res.status = OPTIMAL then
    writeVarValues (writeStatusFields true "optimal" (JVal.jnum res.objectiveValue))
      cpVars res.value
  else if res.status = FEASIBLE then
    writeVarValues (writeStatusFields true "feasible" (JVal.jnum res.objectiveValue))
      cpVars res.value
  else if res.status = INFEASIBLE then
    writeStatusFields false "infeasible" JVal.jnull
  else if res.status = MODEL_INVALID then
    writeStatusFields false "model_invalid" JVal.jnull
  else
    writeStatusFields false "unknown" JVal.jnull

/-- One solve run over an already parsed document, for a deterministic engine
given as a function from programs to outcomes. -/
def solveDoc (doc : InputDoc) (engine : Program → EngineResult) : SolDict :=
  buildSolution (compileProgram doc).vars (engine (compileProgram doc))

/-- Raw parse outcome of the input text: either the parse itself failed, or a
document whose required top-level fields may individually be absent. -/
inductive ParsedInput where
  | malformed (msg : String)
  | doc (varDefs : Option (List (String × NumDict)))
        (constraints : Option (List (String × NumDict)))
        (integers : Option (List String))
        (optimize : Option String)

/-- Fallible pipeline of the source function: propagate the parse fault, fail
with the Python `KeyError` message on a missing required field, propagate an
engine fault, and otherwise build the solution record. -/
def solve_wave_assignment (input : ParsedInput)
    (engine : Program → Except String EngineResult) : Except String SolDict :=
  match input with
  | ParsedInput.malformed msg => Except.error msg
  | ParsedInput.doc vs cs ints opt =>
    match vs with
    | none => Except.error "'variables'"
    | some varDefs =>
      match cs with
      | none => Except.error "'constraints'"
      | some constraints =>
        match ints with
        | none => Except.error "'integers'"
        | some integers =>
          let p := compileProgram ⟨varDefs, constraints, integers, opt⟩
          match engine p with
          | Except.error msg => Except.error msg
          | Except.ok res => Except.ok (buildSolution p.vars res)

/-- The error record emitted by the top-level handler, in source field order. -/
def errorRecord (msg : String) : SolDict :=
  [("feasible", JVal.jbool false), ("status", JVal.jstr "error"),
   ("error", JVal.jstr msg), ("result", JVal.jnull)]

/-- Top-level entry point: print the solution and exit 0, or catch the fault,
print the error record and exit 1.  The pair returned is the record written to
standard output together with the process exit code. -/
def mainRun (input : ParsedInput) (engine : Program → Except String EngineResult) :
    SolDict × Nat :=
  match solve_wave_assignment input engine with
  | Except.ok sol => (sol, 0)
  | Except.error msg => (errorRecord msg, 1)

/-- A constraint entry carries a relation when one of the three relation keys
is present. -/
def hasRelKey (cdef : NumDict) : Bool :=
  (dlookupI cdef "equal").isSome || (dlookupI cdef "min").isSome ||
    (dlookupI cdef "max").isSome

/-- In-place replacement of a key leaves the first match at that key holding
the new value, provided the key occurs at all. -/
theorem find?_replace_self (t : SolDict) (k : String) (v : JVal) :
    (t.map (fun p => if p.1 == k then (k, v) else p)).find? (fun p => p.1 == k)
      = if t.any (fun p => p.1 == k) then some (k, v) else none := by
  induction t with
  | nil => rfl
  | cons p t ih =>
    obtain ⟨p1, p2⟩ := p
    simp only [List.map_cons, List.any_cons]
    by_cases hp : (p1 == k) = true
    · simp [hp, List.find?_cons_of_pos]
    · have hp' : (p1 == k) = false := by simpa using hp
      rw [if_neg (by simp [hp'])]
      rw [List.find?_cons_of_neg _ (by simp [hp'])]
      rw [ih]
      simp only [hp', Bool.false_or]

/-- In-place replacement of one key does not affect lookups at another key. -/
theorem find?_replace_ne (t : SolDict) (k k' : String) (v : JVal) (h : k' ≠ k) :
    (t.map (fun p => if p.1 == k then (k, v) else p)).find? (fun p => p.1 == k')
      = t.find? (fun p => p.1 == k') := by
  induction t with
  | nil => rfl
  | cons p t ih =>
    obtain ⟨p1, p2⟩ := p
    simp only [List.map_cons]
    by_cases hp : (p1 == k) = true
    · have hp1 : p1 = k := by simpa using hp
      have hk : (k == k') = false := by simp [Ne.symm h]
      have hk1 : (p1 == k') = false := by simp [hp1, Ne.symm h]
      rw [if_pos hp]
      rw [List.find?_cons_of_neg _ (by simp [hk]), List.find?_cons_of_neg _ (by simp [hk1])]
      exact ih
    · have hp' : (p1 == k) = false := by simpa using hp
      rw [if_neg (by simp [hp'])]
      by_cases hq : (p1 == k') = true
      · rw [List.find?_cons_of_pos _ (by simp [hq]), List.find?_cons_of_pos _ (by simp [hq])]
      · rw [List.find?_cons_of_neg _ (by simpa using hq), List.find?_cons_of_neg _ (by simpa using hq)]
        exact ih

/-- Lookup after a Python dict assignment: the assigned key reads back the
assigned value, every other key is untouched. -/
theorem dlookup_dictInsert (d : SolDict) (k k' : String) (v : JVal) :
    dlookup (dictInsert d k v) k' = if k' = k then some v else dlookup d k' := by
  unfold dictInsert dlookup
  by_cases h : k' = k
  · subst h
    cases hany : d.any (fun p => p.1 == k') with
    | true =>
      rw [if_pos (show true = true from rfl), if_pos (rfl : k' = k'),
        find?_replace_self, hany, if_pos (show true = true from rfl)]
      rfl
    | false =>
      rw [if_neg (show ¬(false = true) by simp), if_pos (rfl : k' = k'),
        List.find?_append]
      have hnone : d.find? (fun p => p.1 == k') = none := by
        rw [List.find?_eq_none]
        intro x hx hpx
        have hT : d.any (fun p => p.1 == k') = true := List.any_eq_true.mpr ⟨x, hx, hpx⟩
        rw [hany] at hT
        exact Bool.false_ne_true hT
      rw [hnone]
      simp
  · have hk : (k == k') = false := by simp [Ne.symm h]
    cases hany : d.any (fun p => p.1 == k) with
    | true =>
      rw [if_pos (show true = true from rfl), if_neg h, find?_replace_ne _ _ _ _ h]
    | false =>
      rw [if_neg (show ¬(false = true) by simp), if_neg h, List.find?_append]
      simp [hk]

/-- Lookup after the per-variable write loop: a written name reads back its
solver value, any other key keeps its prior value. -/
theorem dlookup_writeVarValues (s : SolDict) (vs : List (String × VarKind))
    (value : String → Int) (n : String) :
    dlookup (writeVarValues s vs value) n
      = if vs.any (fun q => q.1 == n) then some (JVal.jnum (value n))
        else dlookup s n := by
  induction vs generalizing s with
  | nil => simp [writeVarValues]
  | cons q t ih =>
    obtain ⟨q1, qk⟩ := q
    rw [writeVarValues, List.foldl_cons]
    rw [show t.foldl (fun acc r => dictInsert acc r.1 (JVal.jnum (value r.1)))
      (dictInsert s q1 (JVal.jnum (value q1)))
      = writeVarValues (dictInsert s q1 (JVal.jnum (value q1))) t value from rfl]
    rw [ih, dlookup_dictInsert]
    by_cases hq : q1 = n
    · subst hq
      simp [List.any_cons]
    · have hq' : (q1 == n) = false := by simp [hq]
      simp only [List.any_cons, hq', Bool.false_or, if_neg (Ne.symm hq)]

/-- The header writes produce exactly the three-field record, in order. -/
theorem writeStatusFields_eq (b : Bool) (st : String) (r : JVal) :
    writeStatusFields b st r
      = [("feasible", JVal.jbool b), ("status", JVal.jstr st), ("result", r)] := rfl

/-- Status string chosen by the status table for a raw engine status code. -/
def statusName (s : Int) : String :=
  if s = OPTIMAL then "optimal"
  else if s = FEASIBLE then "feasible"
  else if s = INFEASIBLE then "infeasible"
  else if s = MODEL_INVALID then "model_invalid"
  else "unknown"

/-- Result field chosen by the status table for an engine outcome. -/
def resultVal (res : EngineResult) : JVal :=
  if res.status = OPTIMAL ∨ res.status = FEASIBLE then JVal.jnum res.objectiveValue
  else JVal.jnull

/-- The `status` field of the produced record is the status-table string,
whenever no declared variable shadows the `status` key. -/
theorem dlookup_buildSolution_status (vs : List (String × VarKind)) (res : EngineResult)
    (h : ∀ q ∈ vs, q.1 ≠ "status") :
    dlookup (buildSolution vs res) "status" = some (JVal.jstr (statusName res.status)) := by
  have hany : vs.any (fun q => q.1 == "status") = false := by
    rw [List.any_eq_false]
    intro q hq
    simp [h q hq]
  unfold buildSolution statusName
  by_cases h4 : res.status = OPTIMAL
  · rw [if_pos h4, if_pos h4, dlookup_writeVarValues, hany, writeStatusFields_eq]
    simp [dlookup]
  · rw [if_neg h4, if_neg h4]
    by_cases h2 : res.status = FEASIBLE
    · rw [if_pos h2, if_pos h2, dlookup_writeVarValues, hany, writeStatusFields_eq]
      simp [dlookup]
    · rw [if_neg h2, if_neg h2]
      by_cases h3 : res.status = INFEASIBLE
      · rw [if_pos h3, if_pos h3, writeStatusFields_eq]
        simp [dlookup]
      · rw [if_neg h3, if_neg h3]
        by_cases h1 : res.status = MODEL_INVALID
        · rw [if_pos h1, if_pos h1, writeStatusFields_eq]
          simp [dlookup]
        · rw [if_neg h1, if_neg h1, writeStatusFields_eq]
          simp [dlookup]

/-- The `result` field of the produced record is the objective value under the
optimal and feasible branches and null otherwise, whenever no declared
variable shadows the `result` key. -/
theorem dlookup_buildSolution_result (vs : List (String × VarKind)) (res : EngineResult)
    (h : ∀ q ∈ vs, q.1 ≠ "result") :
    dlookup (buildSolution vs res) "result" = some (resultVal res) := by
  have hany : vs.any (fun q => q.1 == "result") = false := by
    rw [List.any_eq_false]
    intro q hq
    simp [h q hq]
  unfold buildSolution resultVal
  by_cases h4 : res.status = OPTIMAL
  · rw [if_pos h4, if_pos (Or.inl h4), dlookup_writeVarValues, hany, writeStatusFields_eq]
    simp [dlookup]
  · rw [if_neg h4]
    by_cases h2 : res.status = FEASIBLE
    · rw [if_pos h2, if_pos (Or.inr h2), dlookup_writeVarValues, hany, writeStatusFields_eq]
      simp [dlookup]
    · have hor : ¬(res.status = OPTIMAL ∨ res.status = FEASIBLE) := by
        rintro (hh | hh)
        · exact h4 hh
        · exact h2 hh
      rw [if_neg h2, if_neg hor]
      by_cases h3 : res.status = INFEASIBLE
      · rw [if_pos h3, writeStatusFields_eq]
        simp [dlookup]
      · rw [if_neg h3]
        by_cases h1 : res.status = MODEL_INVALID
        · rw [if_pos h1, writeStatusFields_eq]
          simp [dlookup]
        · rw [if_neg h1, writeStatusFields_eq]
          simp [dlookup]

/-- A constraint entry compiles to a registered relation exactly when one of
the three relation keys is present. -/
theorem compileConstraint_isSome (varDefs : List (String × NumDict)) (c : String × NumDict) :
    (compileConstraint varDefs c).isSome = hasRelKey c.2 := by
  unfold compileConstraint hasRelKey
  cases dlookupI c.2 "equal" with
  | some v => simp
  | none =>
    cases dlookupI c.2 "min" with
    | some v => simp
    | none =>
      cases dlookupI c.2 "max" with
      | some v => simp
      | none => simp

/-- The registered relations are exactly as many as the entries carrying a
relation key. -/
theorem rels_length_eq (varDefs : List (String × NumDict)) (cs : List (String × NumDict)) :
    (cs.filterMap (compileConstraint varDefs)).length
      = (cs.filter (fun c => hasRelKey c.2)).length := by
  induction cs with
  | nil => rfl
  | cons c t ih =>
    rw [List.filterMap_cons, List.filter_cons]
    have hs := compileConstraint_isSome varDefs c
    cases hc : compileConstraint varDefs c with
    | none =>
      rw [hc] at hs
      simp only [Option.isSome_none] at hs
      rw [← hs]
      simpa using ih
    | some r =>
      rw [hc] at hs
      simp only [Option.isSome_some] at hs
      rw [← hs]
      simpa using ih

/-- A dimension carried by no variable builds the empty term list. -/
theorem lhsTerms_eq_nil (varDefs : List (String × NumDict)) (dim : String)
    (h : ∀ p ∈ varDefs, dlookupI p.2 dim = none) : lhsTerms varDefs dim = [] := by
  unfold lhsTerms
  rw [List.filterMap_eq_nil_iff]
  intro p hp
  rw [h p hp]
  rfl

/-- The two admission tests agree on every integer. -/
theorem boolVar_dom_eq_intVar_dom (v : Int) :
    (v == 0 || v == 1) = (decide (0 ≤ v) && decide (v ≤ 1)) := by
  rw [Bool.eq_iff_iff]
  simp only [Bool.or_eq_true, beq_iff_eq, Bool.and_eq_true, decide_eq_true_eq]
  omega

/-- Both variable kinds bound their variable to the same domain. -/
theorem varDomain_irrel (k k' : VarKind) (v : Int) : varDomain k v = varDomain k' v := by
  cases k <;> cases k' <;>
    simp only [varDomain, boolVar_dom_eq_intVar_dom]

/-- Domain checks over the declared variables do not depend on the `integers`
set. -/
theorem newVars_all_varDomain (varDefs : List (String × NumDict)) (ints : List String)
    (a : String → Int) :
    (newVars varDefs ints).all (fun q => varDomain q.2 (a q.1))
      = varDefs.all (fun p => varDomain VarKind.boolVar (a p.1)) := by
  induction varDefs with
  | nil => rfl
  | cons p t ih =>
    simp only [newVars, List.map_cons, List.all_cons] at ih ⊢
    rw [varDomain_irrel (if ints.contains p.1 then VarKind.boolVar else VarKind.intVar01)
      VarKind.boolVar, ih]

/-- Claim C2: when a constraint definition contains more than one of the
relation keys, exactly one relation is compiled, by the fixed priority of
equal over min over max: an entry containing `equal` (with or without the
others) compiles to an equality against the `equal` bound; an entry without
`equal` but with `min` compiles to a greater-or-equal relation against the
`min` bound, whether or not `max` is also present; and only with `max` alone
does a less-or-equal relation arise. -/
theorem claim_C2_relation_priority (varDefs : List (String × NumDict))
    (name : String) (cdef : NumDict) :
    (∀ v, dlookupI cdef "equal" = some v →
      compileConstraint varDefs (name, cdef)
        = some ⟨lhsTerms varDefs name, Rel.eq, v⟩) ∧
    (∀ v, dlookupI cdef "equal" = none → dlookupI cdef "min" = some v →
      compileConstraint varDefs (name, cdef)
        = some ⟨lhsTerms varDefs name, Rel.ge, v⟩) ∧
    (∀ v, dlookupI cdef "equal" = none → dlookupI cdef "min" = none →
      dlookupI cdef "max" = some v →
      compileConstraint varDefs (name, cdef)
        = some ⟨lhsTerms varDefs name, Rel.le, v⟩) := by
  refine ⟨?_, ?_, ?_⟩
  · intro v hv
    simp only [compileConstraint, hv]
  · intro v h1 h2
    simp only [compileConstraint, h1, h2]
  · intro v h1 h2 h3
    simp only [compileConstraint, h1, h2, h3]

/-- Witness for C2 at a concrete model: an entry with all three keys compiles
to the equality, an entry with min and max but no equal compiles to the
greater-or-equal against the min bound. -/
theorem claim_C2_relation_priority_witness :
    compileConstraint [("a", [("c1", 2)])] ("c1", [("equal", 5), ("min", 1), ("max", 9)])
      = some ⟨[("a", 2)], Rel.eq, 5⟩ ∧
    compileConstraint [("a", [("c1", 2)])] ("c1", [("min", 1), ("max", 9)])
      = some ⟨[("a", 2)], Rel.ge, 1⟩ :=
  ⟨(claim_C2_relation_priority [("a", [("c1", 2)])] "c1"
      [("equal", 5), ("min", 1), ("max", 9)]).1 5 (by decide),
   (claim_C2_relation_priority [("a", [("c1", 2)])] "c1"
      [("min", 1), ("max", 9)]).2.1 1 (by decide) (by decide)⟩

/-- Claim C3: a constraint entry carrying none of the three relation keys
registers no relation (silent skip, no error), so the number of registered
relations equals the number of entries carrying at least one of the keys. -/
theorem claim_C3_skipped_entries (doc : InputDoc) :
    (compileProgram doc).rels.length
      = (doc.constraints.filter (fun c => hasRelKey c.2)).length ∧
    ∀ c ∈ doc.constraints, hasRelKey c.2 = false →
      compileConstraint doc.varDefs c = none := by
  constructor
  · exact rels_length_eq doc.varDefs doc.constraints
  · intro c _ hk
    have hs := compileConstraint_isSome doc.varDefs c
    rw [hk] at hs
    cases hco : compileConstraint doc.varDefs c with
    | none => rfl
    | some r =>
      rw [hco] at hs
      simp at hs

/-- Witness for C3 at a concrete model with one keyless entry: one relation
registered out of two entries, and the keyless entry compiles to nothing. -/
theorem claim_C3_skipped_entries_witness :
    (compileProgram ⟨[("a", [("c1", 1)])],
        [("c1", [("equal", 1)]), ("c2", [("foo", 3)])], [], none⟩).rels.length
      = ((([("c1", [("equal", 1)]), ("c2", [("foo", 3)])] : List (String × NumDict)).filter
          (fun c => hasRelKey c.2)).length) ∧
    compileConstraint [("a", [("c1", 1)])] ("c2", [("foo", 3)]) = none :=
  ⟨(claim_C3_skipped_entries ⟨[("a", [("c1", 1)])],
      [("c1", [("equal", 1)]), ("c2", [("foo", 3)])], [], none⟩).1,
   (claim_C3_skipped_entries ⟨[("a", [("c1", 1)])],
      [("c1", [("equal", 1)]), ("c2", [("foo", 3)])], [], none⟩).2
      ("c2", [("foo", 3)]) (by simp) (by decide)⟩

/-- Claim C9: a constraint entry whose name is carried by no variable
compiles to the empty sum on the left-hand side, that is the constant 0, and
the relation against the bound is still registered; a zero-impossible bound
such as an equality against 2 then makes any program containing the relation
unsatisfiable. -/
theorem claim_C9_empty_sum (varDefs : List (String × NumDict)) (name : String)
    (cdef : NumDict) (hnone : ∀ p ∈ varDefs, dlookupI p.2 name = none) :
    (∀ b, dlookupI cdef "equal" = some b →
      compileConstraint varDefs (name, cdef) = some ⟨[], Rel.eq, b⟩) ∧
    (∀ b, dlookupI cdef "equal" = none → dlookupI cdef "min" = some b →
      compileConstraint varDefs (name, cdef) = some ⟨[], Rel.ge, b⟩) ∧
    (∀ b, dlookupI cdef "equal" = none → dlookupI cdef "min" = none →
      dlookupI cdef "max" = some b →
      compileConstraint varDefs (name, cdef) = some ⟨[], Rel.le, b⟩) ∧
    (∀ (a : String → Int) (b : Int), satRel a ⟨[], Rel.eq, b⟩ = (0 == b)) ∧
    (∀ (p : Program) (b : Int) (a : String → Int),
      LinRel.mk [] Rel.eq b ∈ p.rels → b ≠ 0 → satisfiesProgram p a = false) := by
  have hlhs : lhsTerms varDefs name = [] := lhsTerms_eq_nil varDefs name hnone
  refine ⟨?_, ?_, ?_, ?_, ?_⟩
  · intro b hb
    simp only [compileConstraint, hb, hlhs]
  · intro b h1 h2
    simp only [compileConstraint, h1, h2, hlhs]
  · intro b h1 h2 h3
    simp only [compileConstraint, h1, h2, h3, hlhs]
  · intro a b
    rfl
  · intro p b a hmem hb
    have hfail : satRel a ⟨[], Rel.eq, b⟩ = false := by
      unfold satRel
      simp only [evalTerms, List.map_nil, List.sum_nil]
      exact beq_eq_false_iff_ne.mpr (fun hh => hb hh.symm)
    have hall : p.rels.all (satRel a) = false := by
      rw [List.all_eq_false]
      exact ⟨_, hmem, by rw [hfail]; exact Bool.false_ne_true⟩
    rw [satisfiesProgram, hall, Bool.and_false]

/-- Witness for C9 at the concrete scenario of the spec: an `equal 2`
constraint carried by no variable makes the compiled program unsatisfiable at
every 0/1 point, here checked at the all-zero assignment. -/
theorem claim_C9_empty_sum_witness :
    compileConstraint [("a", [("d", 1)])] ("c", [("equal", 2)])
      = some ⟨[], Rel.eq, 2⟩ ∧
    satisfiesProgram (compileProgram ⟨[("a", [("d", 1)])],
      [("c", [("equal", 2)])], [], none⟩) (fun _ => 0) = false :=
  ⟨(claim_C9_empty_sum [("a", [("d", 1)])] "c" [("equal", 2)] (by decide)).1
      2 (by decide),
   (claim_C9_empty_sum [("a", [("d", 1)])] "c" [("equal", 2)] (by decide)).2.2.2.2
      (compileProgram ⟨[("a", [("d", 1)])], [("c", [("equal", 2)])], [], none⟩)
      2 (fun _ => 0) (by decide) (by decide)⟩

/-- Claim C1: the orchestrator maps each engine outcome to the output record
exactly as the status table prescribes.  Proven optimal: feasible true,
status `optimal`, the objective value, one 0/1 entry per declared variable.
Solution without optimality proof: the same with status `feasible`.  Proven
no solution: exactly the three-field record with feasible false, status
`infeasible`, null result, no variable entries.  Structurally invalid
program: the same with status `model_invalid`.  Every other outcome: the same
with status `unknown`.  The variable names are assumed not to shadow the
three header keys and the engine values are assumed to respect the 0/1
domains. -/
theorem claim_C1_status_table (vs : List (String × VarKind)) (res : EngineResult)
    (hfe : ∀ q ∈ vs, q.1 ≠ "feasible")
    (hst : ∀ q ∈ vs, q.1 ≠ "status")
    (hre : ∀ q ∈ vs, q.1 ≠ "result")
    (hval : ∀ n, res.value n = 0 ∨ res.value n = 1) :
    (res.status = OPTIMAL →
      dlookup (buildSolution vs res) "feasible" = some (JVal.jbool true) ∧
      dlookup (buildSolution vs res) "status" = some (JVal.jstr "optimal") ∧
      dlookup (buildSolution vs res) "result" = some (JVal.jnum res.objectiveValue) ∧
      ∀ q ∈ vs, dlookup (buildSolution vs res) q.1 = some (JVal.jnum (res.value q.1)) ∧
        (res.value q.1 = 0 ∨ res.value q.1 = 1)) ∧
    (res.status = FEASIBLE →
      dlookup (buildSolution vs res) "feasible" = some (JVal.jbool true) ∧
      dlookup (buildSolution vs res) "status" = some (JVal.jstr "feasible") ∧
      dlookup (buildSolution vs res) "result" = some (JVal.jnum res.objectiveValue) ∧
      ∀ q ∈ vs, dlookup (buildSolution vs res) q.1 = some (JVal.jnum (res.value q.1)) ∧
        (res.value q.1 = 0 ∨ res.value q.1 = 1)) ∧
    (res.status = INFEASIBLE →
      buildSolution vs res = [("feasible", JVal.jbool false),
        ("status", JVal.jstr "infeasible"), ("result", JVal.jnull)]) ∧
    (res.status = MODEL_INVALID →
      buildSolution vs res = [("feasible", JVal.jbool false),
        ("status", JVal.jstr "model_invalid"), ("result", JVal.jnull)]) ∧
    (res.status ≠ OPTIMAL → res.status ≠ FEASIBLE → res.status ≠ INFEASIBLE →
      res.status ≠ MODEL_INVALID →
      buildSolution vs res = [("feasible", JVal.jbool false),
        ("status", JVal.jstr "unknown"), ("result", JVal.jnull)]) := by
  have hanyf : vs.any (fun q => q.1 == "feasible") = false := by
    rw [List.any_eq_false]
    intro q hq
    simp [hfe q hq]
  have hanys : vs.any (fun q => q.1 == "status") = false := by
    rw [List.any_eq_false]
    intro q hq
    simp [hst q hq]
  have hanyr : vs.any (fun q => q.1 == "result") = false := by
    rw [List.any_eq_false]
    intro q hq
    simp [hre q hq]
  refine ⟨?_, ?_, ?_, ?_, ?_⟩
  · intro h
    have hb : buildSolution vs res
        = writeVarValues (writeStatusFields true "optimal"
            (JVal.jnum res.objectiveValue)) vs res.value := by
      unfold buildSolution
      rw [if_pos h]
    refine ⟨?_, ?_, ?_, ?_⟩
    · rw [hb, dlookup_writeVarValues, if_neg (by rw [hanyf]; exact Bool.false_ne_true),
        writeStatusFields_eq]
      rfl
    · rw [hb, dlookup_writeVarValues, if_neg (by rw [hanys]; exact Bool.false_ne_true),
        writeStatusFields_eq]
      rfl
    · rw [hb, dlookup_writeVarValues, if_neg (by rw [hanyr]; exact Bool.false_ne_true),
        writeStatusFields_eq]
      rfl
    · intro q hq
      have hmem : vs.any (fun r => r.1 == q.1) = true :=
        List.any_eq_true.mpr ⟨q, hq, by simp⟩
      exact ⟨by rw [hb, dlookup_writeVarValues, if_pos hmem], hval q.1⟩
  · intro h
    have hno : res.status ≠ OPTIMAL := by
      rw [h]
      decide
    have hb : buildSolution vs res
        = writeVarValues (writeStatusFields true "feasible"
            (JVal.jnum res.objectiveValue)) vs res.value := by
      unfold buildSolution
      rw [if_neg hno, if_pos h]
    refine ⟨?_, ?_, ?_, ?_⟩
    · rw [hb, dlookup_writeVarValues, if_neg (by rw [hanyf]; exact Bool.false_ne_true),
        writeStatusFields_eq]
      rfl
    · rw [hb, dlookup_writeVarValues, if_neg (by rw [hanys]; exact Bool.false_ne_true),
        writeStatusFields_eq]
      rfl
    · rw [hb, dlookup_writeVarValues, if_neg (by rw [hanyr]; exact Bool.false_ne_true),
        writeStatusFields_eq]
      rfl
    · intro q hq
      have hmem : vs.any (fun r => r.1 == q.1) = true :=
        List.any_eq_true.mpr ⟨q, hq, by simp⟩
      exact ⟨by rw [hb, dlookup_writeVarValues, if_pos hmem], hval q.1⟩
  · intro h
    have h4 : res.status ≠ OPTIMAL := by
      rw [h]
      decide
    have h2 : res.status ≠ FEASIBLE := by
      rw [h]
      decide
    unfold buildSolution
    rw [if_neg h4, if_neg h2, if_pos h, writeStatusFields_eq]
  · intro h
    have h4 : res.status ≠ OPTIMAL := by
      rw [h]
      decide
    have h2 : res.status ≠ FEASIBLE := by
      rw [h]
      decide
    have h3 : res.status ≠ INFEASIBLE := by
      rw [h]
      decide
    unfold buildSolution
    rw [if_neg h4, if_neg h2, if_neg h3, if_pos h, writeStatusFields_eq]
  · intro h4 h2 h3 h1
    unfold buildSolution
    rw [if_neg h4, if_neg h2, if_neg h3, if_neg h1, writeStatusFields_eq]

/-- Witness for C1 at concrete outcomes: an optimal outcome reads back
status `optimal` with a variable entry, an infeasible outcome produces
exactly the bare three-field record. -/
theorem claim_C1_status_table_witness :
    dlookup (buildSolution [("x", VarKind.boolVar)] ⟨OPTIMAL, fun _ => 1, 6⟩)
      "status" = some (JVal.jstr "optimal") ∧
    buildSolution [("x", VarKind.boolVar)] ⟨INFEASIBLE, fun _ => 0, 5⟩
      = [("feasible", JVal.jbool false), ("status", JVal.jstr "infeasible"),
         ("result", JVal.jnull)] :=
  ⟨((claim_C1_status_table [("x", VarKind.boolVar)] ⟨OPTIMAL, fun _ => 1, 6⟩
      (by decide) (by decide) (by decide) (fun n => Or.inr rfl)).1 rfl).2.1,
   (claim_C1_status_table [("x", VarKind.boolVar)] ⟨INFEASIBLE, fun _ => 0, 5⟩
      (by decide) (by decide) (by decide) (fun n => Or.inl rfl)).2.2.1 rfl⟩

/-- Claim C4: any fault in the pipeline is caught at the top level and turned
into the single error record with feasible false, status `error`, null
result and the fault message, written out with exit code 1, while every
non-fault outcome is written out with exit code 0; the spec scenario of an
input missing the `variables` key faults with a non-empty message. -/
theorem claim_C4_error_contract (input : ParsedInput)
    (engine : Program → Except String EngineResult) :
    (∀ msg, solve_wave_assignment input engine = Except.error msg →
      mainRun input engine = (errorRecord msg, 1) ∧
      dlookup (errorRecord msg) "feasible" = some (JVal.jbool false) ∧
      dlookup (errorRecord msg) "status" = some (JVal.jstr "error") ∧
      dlookup (errorRecord msg) "result" = some JVal.jnull ∧
      dlookup (errorRecord msg) "error" = some (JVal.jstr msg)) ∧
    (∀ sol, solve_wave_assignment input engine = Except.ok sol →
      mainRun input engine = (sol, 0)) ∧
    (∀ cs ints opt, input = ParsedInput.doc none cs ints opt →
      solve_wave_assignment input engine = Except.error "'variables'" ∧
      "'variables'" ≠ "") := by
  refine ⟨?_, ?_, ?_⟩
  · intro msg hmsg
    refine ⟨?_, rfl, rfl, rfl, rfl⟩
    rw [mainRun, hmsg]
  · intro sol hsol
    rw [mainRun, hsol]
  · intro cs ints opt hin
    subst hin
    exact ⟨rfl, by decide⟩

/-- Witness for C4: a missing `variables` field is caught and produces the
error record with exit code 1, and a successful trivial solve exits 0. -/
theorem claim_C4_error_contract_witness :
    mainRun (ParsedInput.doc none none none none) (fun _ => Except.error "engine fault")
      = (errorRecord "'variables'", 1) ∧
    mainRun (ParsedInput.doc (some []) (some []) (some []) none)
        (fun _ => Except.ok ⟨3, fun _ => 0, 0⟩)
      = (buildSolution [] ⟨3, fun _ => 0, 0⟩, 0) :=
  ⟨((claim_C4_error_contract (ParsedInput.doc none none none none)
      (fun _ => Except.error "engine fault")).1 "'variables'" rfl).1,
   (claim_C4_error_contract (ParsedInput.doc (some []) (some []) (some []) none)
      (fun _ => Except.ok ⟨3, fun _ => 0, 0⟩)).2.1
      (buildSolution [] ⟨3, fun _ => 0, 0⟩) rfl⟩

/-- Claim C6: when the objective dimension is carried by no variable, the
compiled minimisation target is the empty sum, the constant 0, and whenever
the engine reports an optimal or feasible outcome with an objective value
consistent with the compiled objective, the result field of the output is 0. -/
theorem claim_C6_objective_omitted (doc : InputDoc) (engine : Program → EngineResult)
    (hopt : ∀ p ∈ doc.varDefs, dlookupI p.2 (doc.optimize.getD "events") = none)
    (hcons : (engine (compileProgram doc)).objectiveValue
      = evalTerms (engine (compileProgram doc)).value (compileProgram doc).objective)
    (hre : ∀ q ∈ (compileProgram doc).vars, q.1 ≠ "result")
    (hok : (engine (compileProgram doc)).status = OPTIMAL ∨
      (engine (compileProgram doc)).status = FEASIBLE) :
    (compileProgram doc).objective = [] ∧
    dlookup (solveDoc doc engine) "result" = some (JVal.jnum 0) := by
  have hobj : (compileProgram doc).objective = [] :=
    lhsTerms_eq_nil doc.varDefs (doc.optimize.getD "events") hopt
  refine ⟨hobj, ?_⟩
  rw [solveDoc, dlookup_buildSolution_result _ _ hre]
  have h0 : (engine (compileProgram doc)).objectiveValue = 0 := by
    rw [hcons, hobj]
    rfl
  unfold resultVal
  rcases hok with h | h
  · rw [if_pos (Or.inl h), h0]
  · rw [if_pos (Or.inr h), h0]

/-- Witness for C6: a model whose objective dimension nobody carries, solved
to optimality, reports result 0. -/
theorem claim_C6_objective_omitted_witness :
    (compileProgram ⟨[("x", [("c1", 1)])], [], [], some "missing"⟩).objective = [] ∧
    dlookup (solveDoc ⟨[("x", [("c1", 1)])], [], [], some "missing"⟩
        (fun _ => ⟨OPTIMAL, fun _ => 0, 0⟩)) "result" = some (JVal.jnum 0) :=
  claim_C6_objective_omitted ⟨[("x", [("c1", 1)])], [], [], some "missing"⟩
    (fun _ => ⟨OPTIMAL, fun _ => 0, 0⟩) (by decide) rfl (by decide) (Or.inl rfl)

/-- Claim C7: the `integers` flag has no effect on the solved domain.  The
program compiled from a model and the program compiled from the same model
with any other `integers` set admit exactly the same assignments, register
the same relations and carry the same objective, so they have the same
feasible region and the same optimal value. -/
theorem claim_C7_integers_flag (doc : InputDoc) (ints2 : List String) :
    (∀ a, satisfiesProgram (compileProgram doc) a
      = satisfiesProgram (compileProgram { doc with integers := ints2 }) a) ∧
    (compileProgram doc).rels = (compileProgram { doc with integers := ints2 }).rels ∧
    (compileProgram doc).objective
      = (compileProgram { doc with integers := ints2 }).objective := by
  refine ⟨?_, rfl, rfl⟩
  intro a
  show ((newVars doc.varDefs doc.integers).all (fun q => varDomain q.2 (a q.1)) &&
      (doc.constraints.filterMap (compileConstraint doc.varDefs)).all (satRel a))
    = ((newVars doc.varDefs ints2).all (fun q => varDomain q.2 (a q.1)) &&
      (doc.constraints.filterMap (compileConstraint doc.varDefs)).all (satRel a))
  rw [newVars_all_varDomain, newVars_all_varDomain]

/-- Claim C8: solving the same model twice with a deterministic engine (same
status and same objective value on the same program, assignments free to
differ) yields the same `status` and the same `result` fields. -/
theorem claim_C8_idempotent (doc : InputDoc) (e1 e2 : Program → EngineResult)
    (hdet : ∀ p, (e1 p).status = (e2 p).status ∧
      (e1 p).objectiveValue = (e2 p).objectiveValue)
    (hst : ∀ q ∈ (compileProgram doc).vars, q.1 ≠ "status")
    (hre : ∀ q ∈ (compileProgram doc).vars, q.1 ≠ "result") :
    dlookup (solveDoc doc e1) "status" = dlookup (solveDoc doc e2) "status" ∧
    dlookup (solveDoc doc e1) "result" = dlookup (solveDoc doc e2) "result" := by
  obtain ⟨hs, ho⟩ := hdet (compileProgram doc)
  constructor
  · rw [solveDoc, solveDoc, dlookup_buildSolution_status _ _ hst,
      dlookup_buildSolution_status _ _ hst, hs]
  · rw [solveDoc, solveDoc, dlookup_buildSolution_result _ _ hre,
      dlookup_buildSolution_result _ _ hre]
    unfold resultVal
    rw [hs, ho]

/-- Witness for C8: two engine runs agreeing on status and objective but
assigning different values to the variable produce equal status and result
fields. -/
theorem claim_C8_idempotent_witness :
    dlookup (solveDoc ⟨[("x", [("c1", 1)])], [], [], none⟩
        (fun _ => ⟨OPTIMAL, fun _ => 0, 0⟩)) "status"
      = dlookup (solveDoc ⟨[("x", [("c1", 1)])], [], [], none⟩
        (fun _ => ⟨OPTIMAL, fun _ => 1, 0⟩)) "status" ∧
    dlookup (solveDoc ⟨[("x", [("c1", 1)])], [], [], none⟩
        (fun _ => ⟨OPTIMAL, fun _ => 0, 0⟩)) "result"
      = dlookup (solveDoc ⟨[("x", [("c1", 1)])], [], [], none⟩
        (fun _ => ⟨OPTIMAL, fun _ => 1, 0⟩)) "result" :=
  claim_C8_idempotent ⟨[("x", [("c1", 1)])], [], [], none⟩
    (fun _ => ⟨OPTIMAL, fun _ => 0, 0⟩) (fun _ => ⟨OPTIMAL, fun _ => 1, 0⟩)
    (fun _ => ⟨rfl, rfl⟩) (by decide) (by decide)

/-- Claim C10: a declared variable named after one of the reserved header
keys overwrites that field of the output record under an optimal or feasible
outcome: the field then holds the solved 0/1 number, in particular it is no
longer a string or boolean or null as the output contract requires for
`status` and `feasible`. -/
theorem claim_C10_reserved_overwritten (doc : InputDoc)
    (engine : Program → EngineResult) (k : String)
    (hk : k = "feasible" ∨ k = "status" ∨ k = "result")
    (hmem : ∃ q ∈ (compileProgram doc).vars, q.1 = k)
    (hok : (engine (compileProgram doc)).status = OPTIMAL ∨
      (engine (compileProgram doc)).status = FEASIBLE)
    (hval : ∀ n, (engine (compileProgram doc)).value n = 0 ∨
      (engine (compileProgram doc)).value n = 1) :
    dlookup (solveDoc doc engine) k
      = some (JVal.jnum ((engine (compileProgram doc)).value k)) ∧
    ((engine (compileProgram doc)).value k = 0 ∨
      (engine (compileProgram doc)).value k = 1) ∧
    (∀ s, dlookup (solveDoc doc engine) k ≠ some (JVal.jstr s)) ∧
    (∀ b, dlookup (solveDoc doc engine) k ≠ some (JVal.jbool b)) ∧
    dlookup (solveDoc doc engine) k ≠ some JVal.jnull := by
  have hany : (compileProgram doc).vars.any (fun q => q.1 == k) = true := by
    obtain ⟨q, hq, hqk⟩ := hmem
    exact List.any_eq_true.mpr ⟨q, hq, by simp [hqk]⟩
  have hl : dlookup (solveDoc doc engine) k
      = some (JVal.jnum ((engine (compileProgram doc)).value k)) := by
    rw [solveDoc]
    unfold buildSolution
    rcases hok with h | h
    · rw [if_pos h, dlookup_writeVarValues, if_pos hany]
    · have hno : (engine (compileProgram doc)).status ≠ OPTIMAL := by
        rw [h]
        decide
      rw [if_neg hno, if_pos h, dlookup_writeVarValues, if_pos hany]
  refine ⟨hl, hval k, ?_, ?_, ?_⟩
  · intro s hcon
    rw [hl] at hcon
    simp at hcon
  · intro b hcon
    rw [hl] at hcon
    simp at hcon
  · intro hcon
    rw [hl] at hcon
    simp at hcon

/-- Witness for C10: a model declaring a variable named `status`, solved to
optimality with the variable at 1, reports the number 1 under the `status`
key of the output record. -/
theorem claim_C10_reserved_overwritten_witness :
    dlookup (solveDoc ⟨[("status", [])], [], [], none⟩
        (fun _ => ⟨OPTIMAL, fun _ => 1, 0⟩)) "status"
      = some (JVal.jnum 1) :=
  (claim_C10_reserved_overwritten ⟨[("status", [])], [], [], none⟩
    (fun _ => ⟨OPTIMAL, fun _ => 1, 0⟩) "status" (Or.inr (Or.inl rfl))
    ⟨("status", VarKind.intVar01), by decide, rfl⟩ (Or.inl rfl)
    (fun n => Or.inr rfl)).1

example :
    mainRun (ParsedInput.doc none none none none) (fun _ => Except.error "boom") =
      (errorRecord "'variables'", 1) := by decide

end SolveWaves
